import Mathlib

/-!
Verification of the real-time chat gateway in `src/chat_works/ws.py`.

The Python module is shallowly embedded: MongoDB collections become Lean
lists, the Redis cache becomes a function from keys to optional entries,
`datetime.utcnow()` becomes an explicit `Nat` clock argument (the embedding
of an ISO timestamp: a later wall-clock instant is a larger `Nat`), and
each `receive_*` handler becomes a pure function from the incoming payload
and the collaborator state to a reply plus the updated state.
Python `str(n)` on a non-negative integer is embedded as `Nat.repr`.
-/

namespace ChatWs

/-! ### Decimal rendering (`str(n)` / f-string interpolation of ints)

`Nat.repr` is the executable embedding of Python's decimal rendering of a
non-negative int.  `decDigits` is an equivalent recursion used only to
reason about it (injectivity, and that no digit is a `':'` separator). -/

def decDigits (n : Nat) : List Char :=
  if _h : n < 10 then [Nat.digitChar n]
  else decDigits (n / 10) ++ [Nat.digitChar (n % 10)]
decreasing_by exact Nat.div_lt_self (by omega) (by omega)

theorem decDigits_of_lt {n : Nat} (h : n < 10) :
    decDigits n = [Nat.digitChar n] := by
  rw [decDigits]; exact dif_pos h

theorem decDigits_of_ge {n : Nat} (h : ¬ n < 10) :
    decDigits n = decDigits (n / 10) ++ [Nat.digitChar (n % 10)] := by
  conv_lhs => rw [decDigits]
  exact dif_neg h

theorem toDigitsCore_eq_decDigits :
    ∀ (fuel n : Nat) (acc : List Char), n < fuel →
      Nat.toDigitsCore 10 fuel n acc = decDigits n ++ acc := by
  intro fuel
  induction fuel with
  | zero => intro n acc h; omega
  | succ f ih =>
    intro n acc h
    rw [Nat.toDigitsCore]
    by_cases h10 : n / 10 = 0
    · have hn : n < 10 := by omega
      rw [if_pos h10, decDigits_of_lt hn, Nat.mod_eq_of_lt hn]
      rfl
    · have hge : ¬ n < 10 := by omega
      rw [if_neg h10, ih (n / 10) _ (by omega), decDigits_of_ge hge,
        List.append_assoc]
      rfl

theorem repr_data (n : Nat) : (Nat.repr n).data = decDigits n := by
  show (Nat.toDigits 10 n).asString.data = decDigits n
  rw [Nat.toDigits, toDigitsCore_eq_decDigits (n + 1) n [] (by omega),
    List.append_nil]
  rfl

theorem digitChar_ne_colon : ∀ d : Nat, d < 10 → Nat.digitChar d ≠ ':' := by
  decide

theorem digitChar_inj_lt :
    ∀ a < 10, ∀ b < 10, Nat.digitChar a = Nat.digitChar b → a = b := by
  decide

theorem decDigits_ne_nil (n : Nat) : decDigits n ≠ [] := by
  by_cases h : n < 10
  · rw [decDigits_of_lt h]; simp
  · rw [decDigits_of_ge h]; simp

theorem decDigits_no_colon (n : Nat) : ':' ∉ decDigits n := by
  induction n using Nat.strong_induction_on with
  | _ n ih =>
    by_cases h : n < 10
    · rw [decDigits_of_lt h]
      intro hmem
      exact digitChar_ne_colon n h (List.mem_singleton.mp hmem).symm
    · rw [decDigits_of_ge h]
      intro hmem
      rcases List.mem_append.mp hmem with h' | h'
      · exact ih (n / 10) (Nat.div_lt_self (by omega) (by omega)) h'
      · exact digitChar_ne_colon (n % 10) (Nat.mod_lt _ (by omega))
          (List.mem_singleton.mp h').symm

theorem decDigits_injective :
    ∀ m n : Nat, decDigits m = decDigits n → m = n := by
  intro m
  induction m using Nat.strong_induction_on with
  | _ m ih =>
    intro n h
    by_cases hm : m < 10 <;> by_cases hn : n < 10
    · rw [decDigits_of_lt hm, decDigits_of_lt hn] at h
      exact digitChar_inj_lt m hm n hn (by simpa using h)
    · exfalso
      rw [decDigits_of_lt hm, decDigits_of_ge hn] at h
      have h1 := congrArg List.length h
      simp only [List.length_append, List.length_singleton,
        List.length_cons, List.length_nil] at h1
      exact decDigits_ne_nil (n / 10)
        (List.eq_nil_of_length_eq_zero (by omega))
    · exfalso
      rw [decDigits_of_ge hm, decDigits_of_lt hn] at h
      have h1 := congrArg List.length h
      simp only [List.length_append, List.length_singleton,
        List.length_cons, List.length_nil] at h1
      exact decDigits_ne_nil (m / 10)
        (List.eq_nil_of_length_eq_zero (by omega))
    · rw [decDigits_of_ge hm, decDigits_of_ge hn] at h
      have h2 := congrArg List.reverse h
      simp only [List.reverse_append, List.reverse_cons, List.reverse_nil,
        List.nil_append, List.singleton_append, List.cons.injEq] at h2
      obtain ⟨hdig, htail⟩ := h2
      have hmm : m % 10 = n % 10 :=
        digitChar_inj_lt _ (Nat.mod_lt _ (by omega)) _
          (Nat.mod_lt _ (by omega)) hdig
      have hdiv : m / 10 = n / 10 := by
        have h3 := congrArg List.reverse htail
        simp only [List.reverse_reverse] at h3
        exact ih (m / 10) (Nat.div_lt_self (by omega) (by omega)) _ h3
      omega

theorem repr_injective (m n : Nat) : Nat.repr m = Nat.repr n → m = n := by
  intro h
  exact decDigits_injective m n (by rw [← repr_data, ← repr_data, h])

theorem repr_no_colon (n : Nat) : ':' ∉ (Nat.repr n).data := by
  rw [repr_data]; exact decDigits_no_colon n

/-! ### `urllib.parse.quote` (used by `get_safe_cache_key`) -/

def utf8Bytes (c : Char) : List Nat :=
  let n := c.toNat
  if n < 0x80 then [n]
  else if n < 0x800 then [0xC0 + n / 0x40, 0x80 + n % 0x40]
  else if n < 0x10000 then
    [0xE0 + n / 0x1000, 0x80 + (n / 0x40) % 0x40, 0x80 + n % 0x40]
  else
    [0xF0 + n / 0x40000, 0x80 + (n / 0x1000) % 0x40,
     0x80 + (n / 0x40) % 0x40, 0x80 + n % 0x40]

def hexUpperDigit (n : Nat) : Char :=
  if n < 10 then Char.ofNat (48 + n) else Char.ofNat (55 + n)

def percentEncodeByte (b : Nat) : List Char :=
  ['%', hexUpperDigit (b / 16), hexUpperDigit (b % 16)]

def quoteSafe (c : Char) : Bool :=
  c.isAlphanum || c = '_' || c = '.' || c = '-' || c = '~' || c = '/'

def pythonQuote (s : String) : String :=
  ⟨s.data.flatMap fun c =>
    if quoteSafe c then [c] else (utf8Bytes c).flatMap percentEncodeByte⟩

def get_safe_cache_key (prefix_ email : String) : String :=
  prefix_ ++ "_" ++ pythonQuote email

theorem get_safe_cache_key_status_ne_last_seen (email : String) :
    get_safe_cache_key "user_status" email ≠
      get_safe_cache_key "user_last_seen" email := by
  intro h
  have h2 := congrArg (fun s => s.data.length) h
  simp [get_safe_cache_key, String.data_append] at h2

/-! ### Splitting a `':'`-separated string back into its fields -/

abbrev NoColon (s : String) : Prop := ':' ∉ s.data

theorem colon_split :
    ∀ (a b s t : List Char), ':' ∉ a → ':' ∉ b →
      a ++ ':' :: s = b ++ ':' :: t → a = b ∧ s = t := by
  intro a
  induction a with
  | nil =>
    intro b s t _ hb h
    cases b with
    | nil =>
      simp only [List.nil_append, List.cons.injEq] at h
      exact ⟨rfl, h.2⟩
    | cons c bs =>
      exfalso
      simp only [List.nil_append, List.cons_append, List.cons.injEq] at h
      exact hb (by rw [h.1]; exact List.mem_cons_self c bs)
  | cons c as ih =>
    intro b s t ha hb h
    cases b with
    | nil =>
      exfalso
      simp only [List.cons_append, List.nil_append, List.cons.injEq] at h
      exact ha (by rw [h.1]; exact List.mem_cons_self ':' as)
    | cons d bs =>
      simp only [List.cons_append, List.cons.injEq] at h
      have hrec := ih bs s t (fun hm => ha (List.mem_cons_of_mem c hm))
        (fun hm => hb (List.mem_cons_of_mem d hm)) h.2
      exact ⟨by rw [h.1, hrec.1], hrec.2⟩

/-! ### Redis key-value cache and the presence lifecycle

`websocket_chat_endpoint` (ws.py:101-179). After a successful handshake it
sets `user_status_<email> = "online"` and `user_last_seen_<email> = now`
(both without expiry); when the receive loop ends with
`WebSocketDisconnect` it sets `user_status` to `"offline"` and rewrites
`user_last_seen` with a 30-day expiry.  When the loop ends with any other
exception the handler only sends a `server_error` frame and closes the
socket, touching no presence key. -/

inductive CacheVal where
  | str (s : String)
  | time (t : Nat)
deriving DecidableEq

structure CacheEntry where
  value : CacheVal
  expiry : Option Nat
deriving DecidableEq

def RedisCache : Type := String → Option CacheEntry

def emptyRedis : RedisCache := fun _ => none

/-- `redis.set(k, v)` (no expiry argument: any previous TTL is discarded). -/
def redisSet (c : RedisCache) (k : String) (v : CacheVal) : RedisCache :=
  fun k2 => if k2 = k then some ⟨v, none⟩ else c k2

/-- `redis.set(k, v, ex=e)`. -/
def redisSetEx (c : RedisCache) (k : String) (v : CacheVal) (ex : Nat) :
    RedisCache :=
  fun k2 => if k2 = k then some ⟨v, some ex⟩ else c k2

/-- ws.py:133-137 — presence writes performed right after the handshake. -/
def onConnect (c : RedisCache) (email : String) (now : Nat) : RedisCache :=
  redisSet (redisSet c (get_safe_cache_key "user_status" email)
      (.str "online"))
    (get_safe_cache_key "user_last_seen" email) (.time now)

/-- How the `websocket_chat_endpoint` receive loop ended. -/
inductive EndReason where
  | clientDisconnect
  | internalError
deriving DecidableEq

/-- ws.py:156-179 — the two `except` arms of the receive loop.  The
`WebSocketDisconnect` arm sets presence offline and rewrites `last_seen`
with a 30-day expiry; the generic-exception arm sends `server_error` and
closes the socket without touching the presence keys. -/
def onConnectionEnd (c : RedisCache) (email : String) (now : Nat) :
    EndReason → RedisCache
  | .clientDisconnect =>
      redisSetEx (redisSet c (get_safe_cache_key "user_status" email)
          (.str "offline"))
        (get_safe_cache_key "user_last_seen" email) (.time now)
        (30 * 24 * 60 * 60)
  | .internalError => c

/-- Presence effect of one whole connection: handshake at `tConn`, loop
ends at `tEnd` for reason `r`. -/
def endpointPresence (c : RedisCache) (email : String) (tConn tEnd : Nat)
    (r : EndReason) : RedisCache :=
  onConnectionEnd (onConnect c email tConn) email tEnd r

/-! ### Connection registry and the per-connection pub/sub listener

`WebSocketManager` (ws.py:38-75).  `connect` stores the socket under
`active_connections[email][connection_id]` and spawns
`listen_to_pubsub`; `disconnect` only removes the dictionary entry.  The
listener loops over `pubsub.listen()` forever, forwarding a bus message to
the socket only while the connection id is still registered; it
unsubscribes only in its `finally:` block, i.e. only when the
`pubsub.listen()` stream itself ends or raises. -/

def Registry : Type := String → List String

def emptyRegistry : Registry := fun _ => []

/-- `WebSocketManager.connect` registry effect (ws.py:42-47). -/
def registerConn (reg : Registry) (email cid : String) : Registry :=
  fun e => if e = email then reg e ++ [cid] else reg e

/-- `WebSocketManager.disconnect` (ws.py:54-59): removes the id from the
per-identity map and nothing else — the listener task is not cancelled and
no unsubscribe is issued. -/
def disconnectConn (reg : Registry) (email cid : String) : Registry :=
  fun e => if e = email then (reg e).erase cid else reg e

structure ListenerState where
  subscribed : Bool
  terminated : Bool
deriving DecidableEq

/-- State of the listener task right after `connect` spawns it. -/
def listenerSpawn : ListenerState := ⟨true, false⟩

/-- One iteration of `listen_to_pubsub`'s `async for` body (ws.py:63-67)
on a `"message"`-typed bus item: deliver to the socket iff the connection
id is still in the registry.  The loop neither terminates nor
unsubscribes as a result of an unregistration. -/
def listen_to_pubsub_step (reg : Registry) (email cid : String)
    (st : ListenerState) (msg : String) : ListenerState × List String :=
  if st.terminated then (st, [])
  else if (reg email).contains cid then (st, [msg])
  else (st, [])

/-- Run the listener over a whole sequence of bus messages, collecting
everything it writes to the socket. -/
def listen_run (reg : Registry) (email cid : String) :
    ListenerState → List String → ListenerState × List String
  | st, [] => (st, [])
  | st, m :: ms =>
      let p := listen_to_pubsub_step reg email cid st m
      let q := listen_run reg email cid p.1 ms
      (q.1, p.2 ++ q.2)

/-! ### Document store primitives

`update_one` applies the update to the first document matching the filter;
its `modified_count` is `0` when no document matched **or** when the
matched document was left unchanged by the `$set`.  `delete_one` removes
the first matching document. -/

def mongoUpdateOne [DecidableEq α] (p : α → Bool) (u : α → α) :
    List α → Nat × List α
  | [] => (0, [])
  | x :: xs =>
    if p x then (if u x = x then 0 else 1, u x :: xs)
    else
      let r := mongoUpdateOne p u xs
      (r.1, x :: r.2)

def mongoDeleteOne (p : α → Bool) : List α → Nat × List α
  | [] => (0, [])
  | x :: xs =>
    if p x then (1, xs)
    else
      let r := mongoDeleteOne p xs
      (r.1, x :: r.2)

theorem mongoUpdateOne_of_forall_not [DecidableEq α] (p : α → Bool)
    (u : α → α) (l : List α) (h : ∀ x ∈ l, ¬ p x = true) :
    mongoUpdateOne p u l = (0, l) := by
  induction l with
  | nil => rfl
  | cons x xs ih =>
    rw [mongoUpdateOne, if_neg (h x (List.mem_cons_self x xs)),
      ih fun y hy => h y (List.mem_cons_of_mem x hy)]

theorem mongoUpdateOne_length [DecidableEq α] (p : α → Bool) (u : α → α)
    (l : List α) : (mongoUpdateOne p u l).2.length = l.length := by
  induction l with
  | nil => rfl
  | cons x xs ih =>
    rw [mongoUpdateOne]
    split <;> simp [ih]

theorem mongoUpdateOne_map [DecidableEq α] (p : α → Bool) (u : α → α)
    (f : α → β) (hu : ∀ x, f (u x) = f x) (l : List α) :
    (mongoUpdateOne p u l).2.map f = l.map f := by
  induction l with
  | nil => rfl
  | cons x xs ih =>
    rw [mongoUpdateOne]
    split <;> simp [hu, ih]

theorem mongoUpdateOne_getElem? [DecidableEq α] (p : α → Bool) (u : α → α)
    (l : List α) (j : Nat) :
    (mongoUpdateOne p u l).2[j]? = l[j]? ∨
      (mongoUpdateOne p u l).2[j]? = l[j]?.map u := by
  induction l generalizing j with
  | nil => left; rfl
  | cons x xs ih =>
    rw [mongoUpdateOne]
    split
    · cases j with
      | zero => right; simp
      | succ i => left; simp
    · cases j with
      | zero => left; simp
      | succ i => simpa using ih i

theorem mongoUpdateOne_find?_some [DecidableEq α] (p : α → Bool)
    (u : α → α) (l : List α) (m : α) (h : l.find? p = some m) :
    (mongoUpdateOne p u l).1 = (if u m = m then 0 else 1) ∧
      ∃ j : Nat, l[j]? = some m ∧
        (mongoUpdateOne p u l).2[j]? = some (u m) := by
  induction l with
  | nil => simp at h
  | cons x xs ih =>
    rw [List.find?] at h
    rw [mongoUpdateOne]
    by_cases hp : p x
    · rw [hp] at h
      simp only [Option.some.injEq] at h
      subst h
      refine ⟨by rw [if_pos hp], 0, by simp, by rw [if_pos hp]; simp⟩
    · rw [Bool.not_eq_true] at hp
      rw [hp] at h
      rw [if_neg (by simp [hp])]
      obtain ⟨h1, j, hj1, hj2⟩ := ih h
      exact ⟨h1, j + 1, by simpa using hj1, by simpa using hj2⟩

theorem mongoDeleteOne_of_forall_not (p : α → Bool) (l : List α)
    (h : ∀ x ∈ l, ¬ p x = true) : mongoDeleteOne p l = (0, l) := by
  induction l with
  | nil => rfl
  | cons x xs ih =>
    rw [mongoDeleteOne, if_neg (h x (List.mem_cons_self x xs)),
      ih fun y hy => h y (List.mem_cons_of_mem x hy)]

/-! ### Chat data model (`rooms` and `messages` collections, §3 of ws.py)

Mongo `ObjectId`s are modeled as the `Nat` values of a fresh-id counter;
`str(ObjectId)` is `Nat.repr`. -/

structure FileMeta where
  filename : String
  size : Nat
  content_type : String
deriving DecidableEq, Repr

structure Message where
  mid : Nat
  room_id : String
  sender : String
  receiver : String
  message : String
  timestamp : Nat
  is_read : Bool
  read_at : Option Nat
  delivered : Bool
  edited : Bool
  edited_at : Option Nat
  file : Option FileMeta
deriving DecidableEq, Repr

structure Room where
  rid : Nat
  participants : List String
  created_at : Nat
  last_message_at : Nat
deriving DecidableEq, Repr

structure MongoStore where
  rooms : List Room
  messages : List Message
  nextRoomId : Nat
  nextMsgId : Nat
deriving DecidableEq, Repr

def emptyStore : MongoStore := ⟨[], [], 0, 0⟩

/-- Python truthiness of a JSON value that is either absent (`none`),
`null`/missing, or a string: `if not v:` is true for `None` and `""`. -/
def pyTruthyStr : Option String → Bool
  | none => false
  | some s => !s.isEmpty

/-! ### `message.send` (ws.py:217-306) -/

/-- The `$all` room lookup filter (ws.py:231-233): the room's participant
list must contain both identities. -/
def roomMatches (r : Room) (a b : String) : Bool :=
  r.participants.contains a && r.participants.contains b

def find_room (rooms : List Room) (a b : String) : Option Room :=
  rooms.find? fun r => roomMatches r a b

/-- ws.py:230-245 — when the payload's room id is falsy, reuse the first
room containing both sender and receiver, else insert
`{participants: [sender, receiver], ...}` and use the fresh id. -/
def resolveRoom (st : MongoStore) (a b : String) (now : Nat) :
    String × MongoStore :=
  match find_room st.rooms a b with
  | some r => (Nat.repr r.rid, st)
  | none =>
      (Nat.repr st.nextRoomId,
       { st with
          rooms := st.rooms ++ [⟨st.nextRoomId, [a, b], now, now⟩],
          nextRoomId := st.nextRoomId + 1 })

/-- `message.send` payload.  In `room_id`, the outer `Option` is key
presence in the JSON object and the inner one distinguishes `null` from a
string; for the other fields only presence matters to the handler's
control flow, so a JSON string value is assumed.  The optional
file-attachment keys are not modeled (no claim concerns them). -/
structure SendPayload where
  room_id : Option (Option String)
  sender : Option String
  receiver : Option String
  message : Option String
deriving DecidableEq, Repr

inductive SendReply where
  | err (etype : String)
  | ok (message_id room_id : String)
deriving DecidableEq, Repr

def receive_message_send (st : MongoStore) (email : String)
    (p : SendPayload) (now : Nat) : SendReply × MongoStore :=
  match p.room_id, p.sender, p.receiver, p.message with
  | some rv, some s, some r, some body =>
    if s ≠ email then (.err "permission_denied", st)
    else
      let rr := if pyTruthyStr rv then (rv.getD "", st)
                else resolveRoom st s r now
      let room_id := rr.1
      let st1 := rr.2
      let msg : Message :=
        { mid := st1.nextMsgId, room_id := room_id, sender := s,
          receiver := r, message := body, timestamp := now,
          is_read := false, read_at := none, delivered := false,
          edited := false, edited_at := none, file := none }
      let st2 := { st1 with
        messages := st1.messages ++ [msg], nextMsgId := st1.nextMsgId + 1 }
      let st3 := { st2 with
        messages := (mongoUpdateOne (fun m : Message => m.mid == msg.mid)
          (fun m : Message => { m with delivered := true })
          st2.messages).2 }
      let st4 := { st3 with
        rooms := (mongoUpdateOne
          (fun rm : Room => Nat.repr rm.rid == room_id)
          (fun rm : Room => { rm with last_message_at := now })
          st3.rooms).2 }
      (.ok (Nat.repr msg.mid) room_id, st4)
  | _, _, _, _ => (.err "validation_error", st)

/-! ### `message.read` (ws.py:308-331)

The update filter is `{_id, receiver: email}` — it does **not** require
`is_read == False`. -/

inductive ReadReply where
  | err (etype : String)
  | ok (message_id : String) (read_at : Nat)
deriving DecidableEq, Repr

def receive_message_read (st : MongoStore) (email : String)
    (message_id : Option String) (now : Nat) : ReadReply × MongoStore :=
  if !pyTruthyStr message_id then (.err "validation_error", st)
  else
    let mid := message_id.getD ""
    let r := mongoUpdateOne
      (fun m => Nat.repr m.mid == mid && m.receiver == email)
      (fun m => { m with is_read := true, read_at := some now }) st.messages
    if r.1 == 0 then (.err "not_found", { st with messages := r.2 })
    else (.ok mid now, { st with messages := r.2 })

/-! ### `message.edit` (ws.py:333-370) and `message.delete` (ws.py:372-404) -/

inductive EditReply where
  | err (etype : String)
  | ok (message_id : String)
deriving DecidableEq, Repr

def receive_message_edit (st : MongoStore) (email : String)
    (message_id new_message : Option String) (now : Nat) :
    EditReply × MongoStore :=
  match message_id, new_message with
  | some mid, some newm =>
      let r := mongoUpdateOne
        (fun m => Nat.repr m.mid == mid && m.sender == email)
        (fun m =>
          { m with message := newm, edited := true, edited_at := some now })
        st.messages
      if r.1 == 0 then (.err "not_found", { st with messages := r.2 })
      else (.ok mid, { st with messages := r.2 })
  | _, _ => (.err "validation_error", st)

inductive DeleteReply where
  | err (etype : String)
  | ok (message_id : String)
deriving DecidableEq, Repr

def receive_message_delete (st : MongoStore) (email : String)
    (message_id : Option String) : DeleteReply × MongoStore :=
  if !pyTruthyStr message_id then (.err "validation_error", st)
  else
    let mid := message_id.getD ""
    match st.messages.find? (fun m => Nat.repr m.mid == mid) with
    | none => (.err "not_found", st)
    | some m =>
        if m.sender ≠ email then (.err "permission_denied", st)
        else
          let r := mongoDeleteOne (fun m2 => Nat.repr m2.mid == mid)
            st.messages
          if r.1 == 0 then (.err "server_error", { st with messages := r.2 })
          else (.ok mid, { st with messages := r.2 })

/-! ### Envelope dispatch (`handle_message`, ws.py:181-199)

The handler is resolved dynamically: `receive_` + the `source` string with
`'.'` replaced by `'_'`, looked up in the module's globals.  The module
defines eleven matching functions — the ten documented three-argument
handlers plus `receive_unread_message(websocket, email)` (ws.py:701),
which takes only two arguments, so dispatching to it raises a `TypeError`
that the generic `except Exception` arm converts to `server_error`.
A `ValueError` escaping a handler is converted to `invalid_request`, any
other exception to `server_error`; dispatch always replies with a frame
and never propagates, so the receive loop continues. -/

def module_receive_handlers : List (String × Nat) :=
  [("receive_message_send", 3), ("receive_message_read", 3),
   ("receive_message_edit", 3), ("receive_message_delete", 3),
   ("receive_message_type", 3), ("receive_user_status", 3),
   ("receive_user_list", 3), ("receive_message_list", 3),
   ("receive_read_list", 3), ("receive_ping", 3),
   ("receive_unread_message", 2)]

/-- `f"receive_{source.replace('.', '_')}"` (ws.py:187). -/
def handlerName (source : String) : String :=
  "receive_" ++ ⟨source.data.map fun c => if c = '.' then '_' else c⟩

def lookupHandler (n : String) : Option Nat :=
  (module_receive_handlers.find? fun h => h.1 == n).map (·.2)

/-- Exceptions a dispatched handler body may raise. -/
inductive HandlerExc where
  | valueError
  | otherExc
deriving DecidableEq, Repr

inductive DispatchReply where
  | errorFrame (etype : String)
  | handled (handler : String)
deriving DecidableEq, Repr

/-- The ten `source` strings §4.3's table documents. -/
def handledSources : List String :=
  ["message.send", "message.read", "message.edit", "message.delete",
   "message.type", "user.status", "user.list", "message.list",
   "read.list", "ping"]

def handle_message (source : Option String)
    (exec : String → Option HandlerExc) : DispatchReply :=
  match source with
  | none => .errorFrame "invalid_request"
  | some s =>
    if s = "" then .errorFrame "invalid_request"
    else
      let hname := handlerName s
      match lookupHandler hname with
      | none => .errorFrame "invalid_request"
      | some arity =>
        if arity = 3 then
          match exec hname with
          | none => .handled hname
          | some .valueError => .errorFrame "invalid_request"
          | some .otherExc => .errorFrame "server_error"
        else .errorFrame "server_error"

/-! ### `user.list` (ws.py:440-564)

The relational directory is a list of rows; `ilike("%q%")` is
case-insensitive substring containment.  The response cache stores the
serialized body with its TTL; a hit is served as-is. -/

structure SqlUser where
  id : Nat
  email : String
  role : String
  is_active : Bool
deriving DecidableEq, Repr

structure UserResponse where
  id : String
  email : String
  role : String
  is_status : String
  last_seen : Option String
  unread_count : Nat
  room_id : Option String
deriving DecidableEq, Repr

structure PaginationInfo where
  page : Nat
  per_page : Nat
  total : Nat
  total_pages : Nat
deriving DecidableEq, Repr

structure UserListResponse where
  data : List UserResponse
  pagination : Option PaginationInfo
deriving DecidableEq, Repr

def pyLower (s : String) : String := ⟨s.data.map Char.toLower⟩

/-- Python `str.strip()`: drop whitespace from both ends. -/
def pyStrip (s : String) : String :=
  ⟨((s.data.dropWhile Char.isWhitespace).reverse.dropWhile
      Char.isWhitespace).reverse⟩

def containsSeq (needle : List Char) : List Char → Bool
  | [] => needle.isPrefixOf []
  | c :: t => needle.isPrefixOf (c :: t) || containsSeq needle t

/-- `User.email.ilike(f"%{search_query}%")`. -/
def ilikeContains (email search : String) : Bool :=
  containsSeq (pyLower search).data (pyLower email).data

/-- ws.py:456-473 — the directory page and the matching count query.  The
query has no ORDER BY; row order is the table's. -/
def fetch_users (users : List SqlUser) (email search_query : String)
    (is_pagination : Bool) (page per_page : Nat) : Nat × List SqlUser :=
  let q0 := users.filter fun u => u.email ≠ email
  let q1 := if search_query = "" then q0
            else q0.filter fun u => ilikeContains u.email search_query
  let total := if search_query = "" then q0.length else q1.length
  let rows := if is_pagination then (q1.drop ((page - 1) * per_page)).take per_page
              else q1
  (total, rows)

/-- ws.py:475-488 — unread messages from one sender to the caller. -/
def unread_count_from (st : MongoStore) (email sender : String) : Nat :=
  (st.messages.filter fun m =>
    m.receiver == email && m.is_read == false && m.sender == sender).length

/-- ws.py:490-496 — two-participant rooms containing the caller. -/
def fetch_rooms (st : MongoStore) (email : String) : List Room :=
  st.rooms.filter fun r =>
    r.participants.contains email && r.participants.length == 2

/-- ws.py:520-526 — resolve a direct-message room id per peer; a later
room overwrites an earlier one for the same peer. -/
def room_map_fold (rooms : List Room) (email : String)
    (emails : List String) : String → Option String :=
  rooms.foldl
    (fun acc r =>
      match r.participants.find? (fun p2 => p2 != email) with
      | some other =>
          if emails.contains other then
            fun x => if x = other then some (Nat.repr r.rid) else acc x
          else acc
      | none => acc)
    fun _ => none

def pyFalsyVal : CacheVal → Bool
  | .str s => s.isEmpty
  | .time _ => false

/-- Rendering of a cached value as the string the Python code would see
(timestamps were stored as ISO strings; a later instant renders to a
distinct string, which the `Nat` model keeps injective). -/
def cacheValStr : CacheVal → String
  | .str s => s
  | .time t => Nat.repr t

/-- `await redis_client.get(user_status_key) or "offline"` (ws.py:528-541
batched form). -/
def statusOf (redis : RedisCache) (u : String) : String :=
  match redis (get_safe_cache_key "user_status" u) with
  | some e => if pyFalsyVal e.value then "offline" else cacheValStr e.value
  | none => "offline"

def lastSeenOf (redis : RedisCache) (u : String) : Option String :=
  match redis (get_safe_cache_key "user_last_seen" u) with
  | some e => if pyFalsyVal e.value then none else some (cacheValStr e.value)
  | none => none

/-- `f"user_list:{email}:{page}:{per_page}:{search_query}"` (ws.py:448).
Note the `is_pagination` flag is not part of the key. -/
def user_list_cache_key (email : String) (page per_page : Nat)
    (search_query : String) : String :=
  "user_list:" ++ email ++ ":" ++ Nat.repr page ++ ":" ++
    Nat.repr per_page ++ ":" ++ search_query

/-- The serialized-response cache: body plus TTL seconds. -/
def UserListCache : Type := String → Option (UserListResponse × Nat)

def emptyUserListCache : UserListCache := fun _ => none

/-- Envelope parameters of `user.list`, read from the top level of the
envelope (not from `data`): `is_pagination` default `True`, `page` default
`1`, `per_page` default `10`, `search` default `""` then stripped. -/
structure UserListParams where
  is_pagination : Option Bool
  page : Option Nat
  per_page : Option Nat
  search : Option String
deriving DecidableEq, Repr

def receive_user_list (sql : List SqlUser) (st : MongoStore)
    (redis : RedisCache) (rcache : UserListCache) (email : String)
    (d : UserListParams) : UserListResponse × UserListCache :=
  let is_pagination := d.is_pagination.getD true
  let page := d.page.getD 1
  let per_page := d.per_page.getD 10
  let search_query := pyStrip (d.search.getD "")
  let cache_key := user_list_cache_key email page per_page search_query
  match rcache cache_key with
  | some c => (c.1, rcache)
  | none =>
      let tr := fetch_users sql email search_query is_pagination page per_page
      let rows := tr.2
      let emails := rows.map (·.email)
      let room_map := room_map_fold (fetch_rooms st email) email emails
      let user_list := rows.map fun u =>
        { id := Nat.repr u.id, email := u.email, role := u.role,
          is_status := statusOf redis u.email,
          last_seen := lastSeenOf redis u.email,
          unread_count := unread_count_from st email u.email,
          room_id := room_map u.email : UserResponse }
      let response : UserListResponse :=
        { data := user_list,
          pagination :=
            if is_pagination then
              some ⟨page, per_page, tr.1, (tr.1 + per_page - 1) / per_page⟩
            else none }
      (response, fun k => if k = cache_key then some (response, 60) else rcache k)

/-! ### `message.list` with a room id (ws.py:566-633) -/

/-- `f"message_list:{email}:{room_id}:{page}:{page_size}"` (ws.py:579). -/
def message_list_cache_key (email room_id : String)
    (page page_size : Nat) : String :=
  "message_list:" ++ email ++ ":" ++ room_id ++ ":" ++ Nat.repr page ++
    ":" ++ Nat.repr page_size

structure MsgOut where
  message_id : String
  room_id : String
  sender : String
  receiver : String
  message : String
  timestamp : Nat
  is_read : Bool
  delivered : Bool
  edited : Bool
  edited_at : Option Nat
  file : Option FileMeta
deriving DecidableEq, Repr

/-- The per-message dictionary built at ws.py:596-613. -/
def msgOut (m : Message) : MsgOut :=
  { message_id := Nat.repr m.mid, room_id := m.room_id, sender := m.sender,
    receiver := m.receiver, message := m.message, timestamp := m.timestamp,
    is_read := m.is_read, delivered := m.delivered, edited := m.edited,
    edited_at := m.edited_at, file := m.file }

structure MessageListData where
  messages : List MsgOut
  page : Nat
  page_size : Nat
  total : Nat
  has_more : Bool
deriving DecidableEq, Repr

/-- The Mongo filter at ws.py:587-590. -/
def ml_query (st : MongoStore) (room_id email : String) : List Message :=
  st.messages.filter fun m =>
    m.room_id == room_id && (m.sender == email || m.receiver == email)

/-- `.sort("timestamp", -1)` — newest first. -/
def ml_sorted (st : MongoStore) (room_id email : String) : List Message :=
  (ml_query st room_id email).mergeSort
    fun a b => decide (b.timestamp ≤ a.timestamp)

/-- ws.py:586-626 on a cache miss: count, fetch one newest-first page,
reverse it for display, flag `has_more`. -/
def ml_compute (st : MongoStore) (email room_id : String)
    (page page_size : Nat) : MessageListData :=
  let skip := page * page_size
  let total_count := (ml_query st room_id email).length
  let msgs :=
    (((ml_sorted st room_id email).drop skip).take page_size).reverse.map
      msgOut
  { messages := msgs, page := page, page_size := page_size,
    total := total_count, has_more := decide (skip + page_size < total_count) }

inductive MessageListReply where
  | delegated
  | reply (d : MessageListData)
deriving DecidableEq, Repr

def MessageListCache : Type := String → Option (MessageListData × Nat)

def emptyMessageListCache : MessageListCache := fun _ => none

/-- `receive_message_list` (ws.py:566-633).  A falsy `room_id` delegates
to `receive_user_list` (modeled as `.delegated`).  `page` defaults to `0`,
`page_size` to `20` and is capped at `100`; the capped value is used for
the skip, the cache key, the fetch limit and `has_more`. -/
def receive_message_list (st : MongoStore) (rcache : MessageListCache)
    (email : String) (room_id : Option String)
    (page0 page_size0 : Option Nat) :
    MessageListReply × MessageListCache :=
  if !pyTruthyStr room_id then (.delegated, rcache)
  else
    let rid := room_id.getD ""
    let page := page0.getD 0
    let page_size := min (page_size0.getD 20) 100
    let cache_key := message_list_cache_key email rid page page_size
    match rcache cache_key with
    | some c => (.reply c.1, rcache)
    | none =>
        let d := ml_compute st email rid page page_size
        (.reply d, fun k => if k = cache_key then some (d, 30) else rcache k)

/-! ### Helper lemmas about the handlers -/

theorem resolveRoom_messages (st : MongoStore) (a b : String) (now : Nat) :
    (resolveRoom st a b now).2.messages = st.messages := by
  rw [resolveRoom]
  cases find_room st.rooms a b <;> rfl

theorem resolveRoom_nextMsgId (st : MongoStore) (a b : String) (now : Nat) :
    (resolveRoom st a b now).2.nextMsgId = st.nextMsgId := by
  rw [resolveRoom]
  cases find_room st.rooms a b <;> rfl

theorem pyTruthyStr_some {s : String} (h : s ≠ "") :
    pyTruthyStr (some s) = true := by
  cases hb : s.isEmpty with
  | false => rw [pyTruthyStr, hb]; rfl
  | true => exact absurd ((String.isEmpty_iff s).mp hb) h

/-! ### Room uniqueness machinery (C1) -/

def countPairRooms (rooms : List Room) (a b : String) : Nat :=
  (rooms.filter fun r => roomMatches r a b).length

/-- Number of rooms whose participants include both `a` and `b`. -/
def countPair (st : MongoStore) (a b : String) : Nat :=
  countPairRooms st.rooms a b

structure SendOp where
  caller : String
  payload : SendPayload
  now : Nat

/-- A sequential run of `message.send` operations against an initially
empty store. -/
def runSends (ops : List SendOp) : MongoStore :=
  ops.foldl
    (fun st op => (receive_message_send st op.caller op.payload op.now).2)
    emptyStore

theorem countPairRooms_eq_countP (rooms : List Room) (a b : String) :
    countPairRooms rooms a b =
      (rooms.map (·.participants)).countP
        fun ps => ps.contains a && ps.contains b := by
  rw [countPairRooms, ← List.countP_eq_length_filter, List.countP_map]
  rfl

theorem bump_rooms_countPair (p : Room → Bool) (now : Nat)
    (rooms : List Room) (a b : String) :
    countPairRooms
        ((mongoUpdateOne p
          (fun rm : Room => { rm with last_message_at := now }) rooms).2)
        a b =
      countPairRooms rooms a b := by
  rw [countPairRooms_eq_countP, countPairRooms_eq_countP,
    mongoUpdateOne_map p
      (fun rm : Room => { rm with last_message_at := now })
      (fun rm : Room => rm.participants) (fun rm => rfl) rooms]

theorem find_room_none_countPair {rooms : List Room} {a b : String}
    (h : find_room rooms a b = none) : countPairRooms rooms a b = 0 := by
  have h2 := List.find?_eq_none.mp h
  rw [countPairRooms]
  rw [List.filter_eq_nil_iff.mpr fun r hr => h2 r hr]
  rfl

theorem countPairRooms_congr (rooms : List Room) {a b s t : String}
    (h : ∀ r : Room, roomMatches r a b = roomMatches r s t) :
    countPairRooms rooms a b = countPairRooms rooms s t := by
  rw [countPairRooms, countPairRooms, List.filter_congr fun r _ => h r]

theorem roomMatches_swap_pair {a b s t : String} (hab : a ≠ b)
    (ha : a = s ∨ a = t) (hb : b = s ∨ b = t) :
    ∀ r : Room, roomMatches r a b = roomMatches r s t := by
  intro r
  rw [roomMatches, roomMatches]
  rcases ha with rfl | rfl
  · rcases hb with rfl | rfl
    · exact absurd rfl hab
    · rfl
  · rcases hb with rfl | rfl
    · exact Bool.and_comm _ _
    · exact absurd rfl hab

/-- One `message.send` preserves "at most one room contains both `a` and
`b`" for distinct `a`, `b`. -/
theorem receive_message_send_countPair (st : MongoStore) (caller : String)
    (p : SendPayload) (now : Nat) (a b : String) (hab : a ≠ b)
    (hinv : countPair st a b ≤ 1) :
    countPair (receive_message_send st caller p now).2 a b ≤ 1 := by
  obtain ⟨prid, ps, pr, pb⟩ := p
  cases prid with
  | none => simpa [receive_message_send] using hinv
  | some rv =>
  cases ps with
  | none => simpa [receive_message_send] using hinv
  | some s =>
  cases pr with
  | none => simpa [receive_message_send] using hinv
  | some r =>
  cases pb with
  | none => simpa [receive_message_send] using hinv
  | some body =>
  by_cases hs : s ≠ caller
  · simpa [receive_message_send, hs] using hinv
  · cases htr : pyTruthyStr rv with
    | true =>
      simpa [receive_message_send, if_neg hs, htr, countPair,
        bump_rooms_countPair] using hinv
    | false =>
      cases hfind : find_room st.rooms s r with
      | some rm =>
        simpa [receive_message_send, if_neg hs, htr, resolveRoom, hfind,
          countPair, bump_rooms_countPair] using hinv
      | none =>
        have hzero : countPairRooms st.rooms s r = 0 :=
          find_room_none_countPair hfind
        simp only [receive_message_send, if_neg hs, htr,
          Bool.false_eq_true, reduceIte, resolveRoom, hfind, countPair,
          bump_rooms_countPair]
        rw [countPairRooms, List.filter_append]
        cases hmatch : roomMatches ⟨st.nextRoomId, [s, r], now, now⟩ a b
          with
      | false =>
        rw [List.filter_cons_of_neg (by simp [hmatch]),
          List.filter_nil, List.length_append, List.length_nil]
        simpa [countPair, countPairRooms] using hinv
      | true =>
        have hmem : (a = s ∨ a = r) ∧ (b = s ∨ b = r) := by
          have h2 := hmatch
          rw [roomMatches] at h2
          simp only [List.contains, List.elem_eq_mem, List.mem_cons,
            List.mem_singleton, List.not_mem_nil, or_false,
            Bool.and_eq_true, decide_eq_true_eq] at h2
          exact h2
        have hcongr := roomMatches_swap_pair hab hmem.1 hmem.2
        have hab0 : countPairRooms st.rooms a b = 0 := by
          rw [countPairRooms_congr st.rooms hcongr]
          exact hzero
        rw [countPairRooms] at hab0
        rw [List.length_append, hab0,
          List.filter_cons_of_pos (by simp [hmatch]), List.filter_nil]
        simp

/-- C1: under sequential sends, a `message.send` with a falsy room id
first looks up a room containing both parties and reuses its id
(ws.py:230-235); only when none exists is `[sender, receiver]` inserted
(ws.py:236-244), so for any two distinct identities at most one room
containing both ever exists. -/
theorem c1_at_most_one_room_per_pair (ops : List SendOp) (a b : String)
    (hab : a ≠ b) :
    countPair (runSends ops) a b ≤ 1
    ∧ ∀ (st : MongoStore) (s r : String) (now : Nat) (rm : Room),
        find_room st.rooms s r = some rm →
        resolveRoom st s r now = (Nat.repr rm.rid, st) := by
  constructor
  · have hfold : ∀ (ops2 : List SendOp) (st : MongoStore),
        countPair st a b ≤ 1 →
        countPair (ops2.foldl (fun st2 op =>
          (receive_message_send st2 op.caller op.payload op.now).2) st)
          a b ≤ 1 := by
      intro ops2
      induction ops2 with
      | nil => intro st h; exact h
      | cons op rest ih =>
        intro st h
        exact ih _ (receive_message_send_countPair st op.caller
          op.payload op.now a b hab h)
    exact hfold ops emptyStore
      (by simp [countPair, countPairRooms, emptyStore])
  · intro st s r now rm hfind
    rw [resolveRoom, hfind]

/-- C1 witness: two sends with no room id between the same pair, in both
directions, leave at most one room containing both. -/
theorem c1_at_most_one_room_per_pair_witness :
    countPair (runSends
      [⟨"a", ⟨some none, some "a", some "b", some "hi"⟩, 0⟩,
       ⟨"b", ⟨some none, some "b", some "a", some "yo"⟩, 1⟩]) "a" "b" ≤ 1 :=
  (c1_at_most_one_room_per_pair _ "a" "b" (by decide)).1

/-! ### Claim theorems -/

/-- C2: `message.read` on an already-read message whose receiver is the
caller does **not** reply `not_found`, and it overwrites the stored
`read_at`.  The update filter (ws.py:316) is `{_id, receiver: email}`
with no `is_read: False` clause, so the document matches and the `$set`
re-stamps `read_at` with the current clock, making `modified_count`
nonzero.  Evaluation at the failing input: one message already read at
time 5, re-read by its receiver `"b"` at time 7 — the handler answers
`ok` and the stored `read_at` becomes 7. -/
theorem c2_read_restamps_read_at :
    receive_message_read
        ⟨[], [⟨0, "0", "a", "b", "hi", 1, true, some 5, true, false, none,
          none⟩], 1, 1⟩
        "b" (some "0") 7 =
      (.ok "0" 7,
       ⟨[], [⟨0, "0", "a", "b", "hi", 1, true, some 7, true, false, none,
         none⟩], 1, 1⟩) := by
  decide

/-- C3: a `message.edit` or `message.delete` request for a stored message
whose sender is not the caller replies `not_found` (edit, ws.py:341-354)
resp. `permission_denied` (delete, ws.py:384-385), and the message store
is left completely unchanged. -/
theorem c3_edit_delete_non_sender (st : MongoStore)
    (email midStr newMsg : String) (now : Nat) (m : Message)
    (hm : m ∈ st.messages) (hid : Nat.repr m.mid = midStr)
    (huniq : ∀ m2 ∈ st.messages, Nat.repr m2.mid = midStr → m2 = m)
    (hsender : m.sender ≠ email) (hne : midStr ≠ "") :
    receive_message_edit st email (some midStr) (some newMsg) now =
      (.err "not_found", st) ∧
    receive_message_delete st email (some midStr) =
      (.err "permission_denied", st) := by
  constructor
  · rw [receive_message_edit]
    have hnone : ∀ x ∈ st.messages,
        ¬ (Nat.repr x.mid == midStr && x.sender == email) = true := by
      intro x hx hcontra
      simp only [Bool.and_eq_true, beq_iff_eq] at hcontra
      exact hsender (huniq x hx hcontra.1 ▸ hcontra.2)
    rw [mongoUpdateOne_of_forall_not _ _ _ hnone]
    rfl
  · have hfound : (st.messages.find?
        fun m2 => Nat.repr m2.mid == midStr).isSome := by
      rw [List.find?_isSome]
      exact ⟨m, hm, by simp [hid]⟩
    obtain ⟨m2, hm2⟩ := Option.isSome_iff_exists.mp hfound
    have hm2m : m2 = m :=
      huniq m2 (List.mem_of_find?_eq_some hm2)
        (by simpa using List.find?_some hm2)
    subst hm2m
    simp [receive_message_delete, pyTruthyStr_some hne, hm2, hsender]

/-- C3 witness: a store holding one message from `"a"`; caller `"b"` can
neither edit nor delete it and the store is untouched. -/
theorem c3_edit_delete_non_sender_witness :
    receive_message_edit
        ⟨[], [⟨0, "0", "a", "b", "hi", 1, false, none, true, false, none,
          none⟩], 1, 1⟩
        "b" (some "0") (some "new") 9 =
      (.err "not_found",
       ⟨[], [⟨0, "0", "a", "b", "hi", 1, false, none, true, false, none,
         none⟩], 1, 1⟩) ∧
    receive_message_delete
        ⟨[], [⟨0, "0", "a", "b", "hi", 1, false, none, true, false, none,
          none⟩], 1, 1⟩
        "b" (some "0") =
      (.err "permission_denied",
       ⟨[], [⟨0, "0", "a", "b", "hi", 1, false, none, true, false, none,
         none⟩], 1, 1⟩) :=
  c3_edit_delete_non_sender _ "b" "0" "new" 9
    ⟨0, "0", "a", "b", "hi", 1, false, none, true, false, none, none⟩
    (by decide) (by decide) (by decide) (by decide) (by decide)

/-- C4 counterexample: the envelope source `"unread.message"` is not one
of the ten documented sources, yet dispatch does not reply
`invalid_request`: the derived name `receive_unread_message` names a
module function of arity 2 (ws.py:701), the call raises `TypeError`, and
the generic handler converts it to a `server_error` frame. -/
theorem c4_dispatch_cex :
    handle_message (some "unread.message") (fun _ => none) =
      .errorFrame "server_error" ∧
    "unread.message" ∉ handledSources := by
  decide

/-- C4 (amended): dispatch replies `invalid_request` exactly when the
source is missing/empty or the derived `receive_*` name matches no module
function; the name `receive_unread_message` (arity 2) is reachable and
produces `server_error` instead; a `ValueError` escaping a handler
becomes `invalid_request` and any other exception becomes `server_error`;
each of the ten documented sources resolves to an arity-3 handler; in
every case dispatch returns an error frame rather than propagating, so
the receive loop continues. -/
theorem c4_dispatch_amended (s : String)
    (exec : String → Option HandlerExc) :
    (handle_message none exec = .errorFrame "invalid_request")
    ∧ (s ≠ "" → lookupHandler (handlerName s) = none →
        handle_message (some s) exec = .errorFrame "invalid_request")
    ∧ (lookupHandler (handlerName s) = some 3 →
        exec (handlerName s) = some .valueError →
        handle_message (some s) exec = .errorFrame "invalid_request")
    ∧ (lookupHandler (handlerName s) = some 3 →
        exec (handlerName s) = some .otherExc →
        handle_message (some s) exec = .errorFrame "server_error")
    ∧ (lookupHandler (handlerName s) = some 2 →
        handle_message (some s) exec = .errorFrame "server_error")
    ∧ (∀ src ∈ handledSources, lookupHandler (handlerName src) = some 3) := by
  have hempty : lookupHandler (handlerName "") = none := by decide
  refine ⟨rfl, ?_, ?_, ?_, ?_, by decide⟩
  · intro hs hnone
    simp [handle_message, if_neg hs, hnone]
  · intro h3 hexec
    have hs : s ≠ "" := by
      intro h
      rw [h, hempty] at h3
      exact Option.noConfusion h3
    simp [handle_message, if_neg hs, h3, hexec]
  · intro h3 hexec
    have hs : s ≠ "" := by
      intro h
      rw [h, hempty] at h3
      exact Option.noConfusion h3
    simp [handle_message, if_neg hs, h3, hexec]
  · intro h2
    have hs : s ≠ "" := by
      intro h
      rw [h, hempty] at h2
      exact Option.noConfusion h2
    simp [handle_message, if_neg hs, h2]

/-- C4 witness: a `message.list` handler raising a generic exception is
reported as `server_error`. -/
theorem c4_dispatch_amended_witness :
    handle_message (some "message.list") (fun _ => some .otherExc) =
      .errorFrame "server_error" :=
  (c4_dispatch_amended "message.list" (fun _ => some .otherExc)).2.2.2.1
    (by decide) (by decide)

/-- C5 counterexample: when the receive loop ends with a generic
exception (ws.py:176-179) the handler sends `server_error` and closes the
socket without touching the presence keys, so after the connection is
gone the cache still answers `online` for that identity — the claim's
"for any reason the connection ends" is false. -/
theorem c5_presence_cex :
    endpointPresence emptyRedis "a" 0 1 .internalError
        (get_safe_cache_key "user_status" "a") =
      some ⟨.str "online", none⟩ ∧
    CacheVal.str "online" ≠ CacheVal.str "offline" := by
  decide

/-- C5 (amended): after the handshake the presence cache holds `online`
and a fresh `last_seen`, both without expiry; when the loop ends with
`WebSocketDisconnect` the cache holds `offline` and a `last_seen` that is
at least the connect time, written with a 30-day expiry — `last_seen`
receives an expiry on this disconnect path only; when the loop ends with
any other exception the presence keys keep their connect-time values. -/
theorem c5_presence_amended (c : RedisCache) (email : String)
    (tConn tEnd : Nat) (h : tConn ≤ tEnd) :
    (onConnect c email tConn (get_safe_cache_key "user_status" email) =
      some ⟨.str "online", none⟩)
    ∧ (onConnect c email tConn (get_safe_cache_key "user_last_seen" email) =
      some ⟨.time tConn, none⟩)
    ∧ (endpointPresence c email tConn tEnd .clientDisconnect
        (get_safe_cache_key "user_status" email) =
      some ⟨.str "offline", none⟩)
    ∧ (∃ t : Nat, tConn ≤ t ∧
        endpointPresence c email tConn tEnd .clientDisconnect
            (get_safe_cache_key "user_last_seen" email) =
          some ⟨.time t, some (30 * 24 * 60 * 60)⟩)
    ∧ (endpointPresence c email tConn tEnd .internalError =
        onConnect c email tConn) := by
  have hne := get_safe_cache_key_status_ne_last_seen email
  refine ⟨?_, ?_, ?_, ⟨tEnd, h, ?_⟩, rfl⟩
  · rw [onConnect, redisSet, if_neg hne, redisSet, if_pos rfl]
  · rw [onConnect, redisSet, if_pos rfl]
  · rw [endpointPresence, onConnectionEnd, redisSetEx, if_neg hne,
      redisSet, if_pos rfl]
  · rw [endpointPresence, onConnectionEnd, redisSetEx, if_pos rfl]

/-- C5 witness: concrete run at connect time 0, disconnect time 1. -/
theorem c5_presence_amended_witness :
    (onConnect emptyRedis "a" 0 (get_safe_cache_key "user_status" "a") =
      some ⟨.str "online", none⟩)
    ∧ (onConnect emptyRedis "a" 0 (get_safe_cache_key "user_last_seen" "a") =
      some ⟨.time 0, none⟩)
    ∧ (endpointPresence emptyRedis "a" 0 1 .clientDisconnect
        (get_safe_cache_key "user_status" "a") =
      some ⟨.str "offline", none⟩)
    ∧ (∃ t : Nat, 0 ≤ t ∧
        endpointPresence emptyRedis "a" 0 1 .clientDisconnect
            (get_safe_cache_key "user_last_seen" "a") =
          some ⟨.time t, some (30 * 24 * 60 * 60)⟩)
    ∧ (endpointPresence emptyRedis "a" 0 1 .internalError =
        onConnect emptyRedis "a" 0) :=
  c5_presence_amended emptyRedis "a" 0 1 (by decide)

/-- C6: evaluation at the failing input.  `disconnect` (ws.py:54-59) only
removes the registry entry; the `listen_to_pubsub` loop keeps iterating
over `pubsub.listen()` and only its `finally:` unsubscribes, so after
unregistration the listener delivers nothing to the closed socket (the
registry guard at ws.py:65 fails) and raises nothing, but it is still
subscribed and not terminated — the unregistration does **not** make it
unsubscribe or exit, which is what the specification requires. -/
theorem c6_listener_not_terminated :
    listen_run (disconnectConn (registerConn emptyRegistry "a" "c1") "a"
        "c1") "a" "c1" listenerSpawn ["m1", "m2"] =
      (⟨true, false⟩, []) := by
  decide

/-- C7 counterexample: a `message.send` payload carrying
`sender == caller`, a receiver and a body but no `room_id` **key** is
rejected with `validation_error` and nothing is stored:
`required_fields` (ws.py:219) lists `room_id`, so the key must be present
(only its value is optional). -/
theorem c7_send_cex :
    receive_message_send emptyStore "a" ⟨none, some "a", some "b",
        some "hi"⟩ 0 =
      (.err "validation_error", emptyStore) := by
  decide

/-- C7 (amended): when the payload carries all four keys — `room_id`
possibly null — with `sender == caller` (and no file attachment), the
send succeeds: a room is resolved or created and exactly one message is
inserted; a missing key among `room_id`, `sender`, `receiver`, `message`
yields `validation_error` with the store unchanged. -/
theorem c7_send_amended (st : MongoStore) (email : String) (now : Nat) :
    (∀ (rv : Option String) (r body : String),
      ∃ (midStr ridStr : String) (st2 : MongoStore),
        receive_message_send st email ⟨some rv, some email, some r,
            some body⟩ now =
          (.ok midStr ridStr, st2) ∧
        st2.messages.length = st.messages.length + 1)
    ∧ (∀ p : SendPayload,
        p.room_id = none ∨ p.sender = none ∨ p.receiver = none ∨
          p.message = none →
        receive_message_send st email p now = (.err "validation_error", st)) := by
  constructor
  · intro rv r body
    rw [receive_message_send]
    simp only [ne_eq, not_true_eq_false, reduceIte]
    refine ⟨_, _, _, rfl, ?_⟩
    by_cases htr : pyTruthyStr rv = true
    · simp only [htr, if_pos]
      rw [mongoUpdateOne_length]
      simp
    · rw [Bool.not_eq_true] at htr
      simp only [htr, Bool.false_eq_true, reduceIte]
      rw [mongoUpdateOne_length]
      simp [resolveRoom_messages]
  · rintro ⟨prid, ps, pr, pb⟩ hmiss
    cases prid <;> cases ps <;> cases pr <;> cases pb <;>
      simp_all [receive_message_send]

/-- C7 witness: concrete payloads — all keys present with a null
`room_id` succeeds and stores one message; omitting the `room_id` key is
rejected. -/
theorem c7_send_amended_witness :
    (∃ (midStr ridStr : String) (st2 : MongoStore),
      receive_message_send emptyStore "a" ⟨some none, some "a", some "b",
          some "hi"⟩ 0 =
        (.ok midStr ridStr, st2) ∧
      st2.messages.length = emptyStore.messages.length + 1) ∧
    receive_message_send emptyStore "a" ⟨none, some "a", some "b",
        some "hi"⟩ 0 =
      (.err "validation_error", emptyStore) :=
  ⟨(c7_send_amended emptyStore "a" 0).1 none "b" "hi",
   (c7_send_amended emptyStore "a" 0).2
     ⟨none, some "a", some "b", some "hi"⟩ (Or.inl rfl)⟩

/-! ### Pagination helpers (C8, C10) -/

theorem take_chunk (L : List α) (m n : Nat) :
    L.take m ++ (L.drop m).take n = L.take (m + n) := by
  have h1 : (L.take (m + n)).take m = L.take m := by
    rw [List.take_take, Nat.min_eq_left (Nat.le_add_right m n)]
  calc L.take m ++ (L.drop m).take n
      = (L.take (m + n)).take m ++ (L.take (m + n)).drop m := by
        rw [h1, List.take_drop]
    _ = L.take (m + n) := List.take_append_drop _ _

/-- Concatenating display pages `0..k` (each reversed before display)
gives a permutation of the first `(k+1)·ps` elements of the sorted
stream. -/
theorem pages_flatMap_perm (L : List Message) (ps : Nat) :
    ∀ k, ((List.range (k + 1)).flatMap fun i =>
        ((L.drop (i * ps)).take ps).reverse.map msgOut).Perm
      ((L.take ((k + 1) * ps)).map msgOut) := by
  intro k
  induction k with
  | zero =>
    simp only [List.range_succ, List.range_zero, List.nil_append,
      List.flatMap_singleton, List.drop_zero, Nat.zero_mul, Nat.zero_add,
      Nat.one_mul, List.map_reverse]
    exact List.reverse_perm _
  | succ k ih =>
    rw [List.range_succ, List.flatMap_append, List.flatMap_singleton]
    have hpage : (((L.drop ((k + 1) * ps)).take ps).reverse.map
        msgOut).Perm (((L.drop ((k + 1) * ps)).take ps).map msgOut) := by
      rw [List.map_reverse]
      exact List.reverse_perm _
    refine (ih.append hpage).trans ?_
    rw [← List.map_append, take_chunk,
      show (k + 1) * ps + ps = (k + 1 + 1) * ps by ring]

/-- The newest-first stream really is sorted by descending timestamp. -/
theorem ml_sorted_pairwise (st : MongoStore) (rid email : String) :
    (ml_sorted st rid email).Pairwise
      fun x y : Message => y.timestamp ≤ x.timestamp := by
  have h := @List.sorted_mergeSort Message
    (fun a b : Message => decide (b.timestamp ≤ a.timestamp))
    (fun a b c h1 h2 => by
      simp only [decide_eq_true_eq] at h1 h2 ⊢
      omega)
    (fun a b => by
      simp only [Bool.or_eq_true, decide_eq_true_eq]
      omega)
    (ml_query st rid email)
  exact h.imp fun hx => by simpa using hx

/-- C8: on a cache miss, `message.list` with a room id returns the page
cut from the newest-first ordering and reversed to ascending timestamp
order; the reported total is the full filtered count; pages `0..k`
together cover exactly that total once `(k+1)·page_size` reaches it; and
`has_more` is true exactly when `skip + page_size < total`. -/
theorem c8_message_list_pagination (st : MongoStore) (email rid : String)
    (ps p k : Nat) (hrid : rid ≠ "") (hps : 1 ≤ ps) (hps100 : ps ≤ 100) :
    ((receive_message_list st emptyMessageListCache email (some rid)
        (some p) (some ps)).1 = .reply (ml_compute st email rid p ps))
    ∧ ((ml_compute st email rid p ps).messages =
        (((ml_sorted st rid email).drop (p * ps)).take ps).reverse.map
          msgOut)
    ∧ ((ml_compute st email rid p ps).messages.Pairwise
        fun x y : MsgOut => x.timestamp ≤ y.timestamp)
    ∧ ((ml_compute st email rid p ps).total =
        (ml_query st rid email).length)
    ∧ ((ml_query st rid email).length ≤ (k + 1) * ps →
        ((List.range (k + 1)).flatMap fun i =>
            (ml_compute st email rid i ps).messages).Perm
          ((ml_query st rid email).map msgOut)
        ∧ ((List.range (k + 1)).flatMap fun i =>
            (ml_compute st email rid i ps).messages).length =
          (ml_compute st email rid 0 ps).total)
    ∧ ((ml_compute st email rid p ps).has_more = true ↔
        p * ps + ps < (ml_query st rid email).length) := by
  have hmin : min ps 100 = ps := Nat.min_eq_left hps100
  refine ⟨?_, rfl, ?_, rfl, ?_, ?_⟩
  · simp [receive_message_list, pyTruthyStr_some hrid,
      emptyMessageListCache, hmin]
  · show ((((ml_sorted st rid email).drop (p * ps)).take ps).reverse.map
        msgOut).Pairwise fun x y : MsgOut => x.timestamp ≤ y.timestamp
    rw [List.pairwise_map, List.pairwise_reverse]
    have hsub : List.Sublist
        (((ml_sorted st rid email).drop (p * ps)).take ps)
        (ml_sorted st rid email) :=
      (List.take_sublist _ _).trans (List.drop_sublist _ _)
    exact ((ml_sorted_pairwise st rid email).sublist hsub).imp
      fun hx => hx
  · intro hk
    have hlen : (ml_sorted st rid email).length =
        (ml_query st rid email).length := by
      rw [ml_sorted, List.length_mergeSort]
    have htake : (ml_sorted st rid email).take ((k + 1) * ps) =
        ml_sorted st rid email :=
      List.take_of_length_le (by omega)
    have hperm : ((List.range (k + 1)).flatMap fun i =>
        (ml_compute st email rid i ps).messages).Perm
          ((ml_query st rid email).map msgOut) := by
      refine (pages_flatMap_perm (ml_sorted st rid email) ps k).trans ?_
      rw [htake]
      exact (List.mergeSort_perm _ _).map msgOut
    refine ⟨hperm, ?_⟩
    rw [hperm.length_eq, List.length_map]
    rfl
  · rw [ml_compute]
    simp

/-- C8 witness: the conjunction evaluated on the empty store with
page size 1, page 0, and coverage bound k = 0. -/
theorem c8_message_list_pagination_witness :
    ((receive_message_list emptyStore emptyMessageListCache "u" (some "r")
        (some 0) (some 1)).1 = .reply (ml_compute emptyStore "u" "r" 0 1))
    ∧ (((List.range (0 + 1)).flatMap fun i =>
          (ml_compute emptyStore "u" "r" i 1).messages).Perm
        ((ml_query emptyStore "r" "u").map msgOut)
      ∧ ((List.range (0 + 1)).flatMap fun i =>
          (ml_compute emptyStore "u" "r" i 1).messages).length =
        (ml_compute emptyStore "u" "r" 0 1).total)
    ∧ ((ml_compute emptyStore "u" "r" 0 1).has_more = true ↔
        0 * 1 + 1 < (ml_query emptyStore "r" "u").length) :=
  ⟨(c8_message_list_pagination emptyStore "u" "r" 1 0 0 (by decide)
      (by decide) (by decide)).1,
   (c8_message_list_pagination emptyStore "u" "r" 1 0 0 (by decide)
      (by decide) (by decide)).2.2.2.2.1 (by decide),
   (c8_message_list_pagination emptyStore "u" "r" 1 0 0 (by decide)
      (by decide) (by decide)).2.2.2.2.2⟩

/-- C10: the effective page size of `message.list` is the requested one
capped at 100 (default 20) and the page number defaults to 0; a request
for more than 100 per page is served at most 100 messages, with the skip
and `has_more` computed from the capped value. -/
theorem c10_page_size_capped (st : MongoStore) (email rid : String)
    (page psReq : Nat) (hrid : rid ≠ "") (hbig : 100 < psReq) :
    ((receive_message_list st emptyMessageListCache email (some rid)
        (some page) (some psReq)).1 =
      .reply (ml_compute st email rid page 100))
    ∧ (ml_compute st email rid page 100).page_size = 100
    ∧ (ml_compute st email rid page 100).messages.length ≤ 100
    ∧ ((ml_compute st email rid page 100).has_more = true ↔
        page * 100 + 100 < (ml_query st rid email).length)
    ∧ ((receive_message_list st emptyMessageListCache email (some rid)
        none none).1 = .reply (ml_compute st email rid 0 20)) := by
  have hmin : min psReq 100 = 100 := Nat.min_eq_right (Nat.le_of_lt hbig)
  refine ⟨?_, rfl, ?_, ?_, ?_⟩
  · simp [receive_message_list, pyTruthyStr_some hrid,
      emptyMessageListCache, hmin]
  · rw [ml_compute]
    simp only [List.length_map, List.length_reverse]
    exact List.length_take_le _ _
  · rw [ml_compute]
    simp
  · simp [receive_message_list, pyTruthyStr_some hrid,
      emptyMessageListCache]

/-- C10 witness: a request for 150 per page on the empty store. -/
theorem c10_page_size_capped_witness :
    ((receive_message_list emptyStore emptyMessageListCache "u" (some "r")
        (some 0) (some 150)).1 =
      .reply (ml_compute emptyStore "u" "r" 0 100))
    ∧ (ml_compute emptyStore "u" "r" 0 100).page_size = 100
    ∧ (ml_compute emptyStore "u" "r" 0 100).messages.length ≤ 100
    ∧ ((ml_compute emptyStore "u" "r" 0 100).has_more = true ↔
        0 * 100 + 100 < (ml_query emptyStore "r" "u").length)
    ∧ ((receive_message_list emptyStore emptyMessageListCache "u"
        (some "r") none none).1 =
      .reply (ml_compute emptyStore "u" "r" 0 20)) :=
  c10_page_size_capped emptyStore "u" "r" 0 150 (by decide) (by decide)

/-! ### Cache-key separation (C9) -/

theorem user_list_cache_key_data (e : String) (p pp : Nat) (s : String) :
    (user_list_cache_key e p pp s).data =
      "user_list:".data ++ (e.data ++ ':' :: ((Nat.repr p).data ++ ':' ::
        ((Nat.repr pp).data ++ ':' :: s.data))) := by
  have hc : (":" : String).data = [':'] := rfl
  simp [user_list_cache_key, String.data_append, hc, List.append_assoc]

theorem message_list_cache_key_data (e rid : String) (p pp : Nat) :
    (message_list_cache_key e rid p pp).data =
      "message_list:".data ++ (e.data ++ ':' :: (rid.data ++ ':' ::
        ((Nat.repr p).data ++ ':' :: (Nat.repr pp).data))) := by
  have hc : (":" : String).data = [':'] := rfl
  simp [message_list_cache_key, String.data_append, hc, List.append_assoc]

/-- C9 counterexample: two `user.list` requests that differ only in the
pagination toggle — which changes the result, since the response carries
a `pagination` object exactly when the toggle is truthy and the directory
page is cut down only then — share the cache key
`f"user_list:{email}:{page}:{per_page}:{search}"` (ws.py:448), so the
second request is answered with the cached body computed for the first:
with one directory entry, the `is_pagination=False` request served after
an `is_pagination=True` request returns the paginated body, while the
same request against a cold cache returns a body without `pagination`. -/
theorem c9_cache_key_cex :
    (receive_user_list [⟨1, "b", "user", true⟩] emptyStore emptyRedis
        (receive_user_list [⟨1, "b", "user", true⟩] emptyStore emptyRedis
          emptyUserListCache "a"
          ⟨some true, some 1, some 10, some ""⟩).2
        "a" ⟨some false, some 1, some 10, some ""⟩).1 =
      (receive_user_list [⟨1, "b", "user", true⟩] emptyStore emptyRedis
        emptyUserListCache "a" ⟨some true, some 1, some 10, some ""⟩).1
    ∧ (receive_user_list [⟨1, "b", "user", true⟩] emptyStore emptyRedis
        (receive_user_list [⟨1, "b", "user", true⟩] emptyStore emptyRedis
          emptyUserListCache "a"
          ⟨some true, some 1, some 10, some ""⟩).2
        "a" ⟨some false, some 1, some 10, some ""⟩).1.pagination.isSome
    ∧ (receive_user_list [⟨1, "b", "user", true⟩] emptyStore emptyRedis
        emptyUserListCache "a"
        ⟨some false, some 1, some 10, some ""⟩).1.pagination = none := by
  decide

/-- C9 (amended): apart from the pagination toggle — which `user.list`
omits from its cache key — the cache keys do capture every
result-affecting parameter: provided the string-valued fields contain no
`':'` separator, two `user.list` keys agree only when identity, page,
per-page and (stripped) search all agree, and two `message.list` keys
agree only when identity, room id, page and page size all agree. -/
theorem c9_cache_keys_inj (e1 e2 s1 s2 rid1 rid2 : String)
    (p1 p2 pp1 pp2 : Nat)
    (he1 : NoColon e1) (he2 : NoColon e2) (hs1 : NoColon s1)
    (hs2 : NoColon s2) (hr1 : NoColon rid1) (hr2 : NoColon rid2) :
    (user_list_cache_key e1 p1 pp1 s1 = user_list_cache_key e2 p2 pp2 s2 →
      e1 = e2 ∧ p1 = p2 ∧ pp1 = pp2 ∧ s1 = s2)
    ∧ (message_list_cache_key e1 rid1 p1 pp1 =
        message_list_cache_key e2 rid2 p2 pp2 →
      e1 = e2 ∧ rid1 = rid2 ∧ p1 = p2 ∧ pp1 = pp2) := by
  constructor
  · intro h
    have hd := congrArg String.data h
    rw [user_list_cache_key_data, user_list_cache_key_data] at hd
    have h1 := List.append_cancel_left hd
    obtain ⟨hee, h2⟩ := colon_split _ _ _ _ he1 he2 h1
    obtain ⟨hpp, h3⟩ := colon_split _ _ _ _ (repr_no_colon p1)
      (repr_no_colon p2) h2
    obtain ⟨hqq, h4⟩ := colon_split _ _ _ _ (repr_no_colon pp1)
      (repr_no_colon pp2) h3
    exact ⟨String.ext hee, repr_injective _ _ (String.ext hpp),
      repr_injective _ _ (String.ext hqq), String.ext h4⟩
  · intro h
    have hd := congrArg String.data h
    rw [message_list_cache_key_data, message_list_cache_key_data] at hd
    have h1 := List.append_cancel_left hd
    obtain ⟨hee, h2⟩ := colon_split _ _ _ _ he1 he2 h1
    obtain ⟨hrr, h3⟩ := colon_split _ _ _ _ hr1 hr2 h2
    obtain ⟨hpp, h4⟩ := colon_split _ _ _ _ (repr_no_colon p1)
      (repr_no_colon p2) h3
    exact ⟨String.ext hee, String.ext hrr,
      repr_injective _ _ (String.ext hpp),
      repr_injective _ _ (String.ext h4)⟩

/-- C9 witness: concrete colon-free parameters — equal keys force equal
parameters. -/
theorem c9_cache_keys_inj_witness :
    (user_list_cache_key "a@x" 1 10 "q" = user_list_cache_key "a@x" 1 10
        "q" →
      "a@x" = "a@x" ∧ 1 = 1 ∧ 10 = 10 ∧ "q" = "q")
    ∧ (message_list_cache_key "a@x" "77" 1 10 =
        message_list_cache_key "a@x" "77" 1 10 →
      "a@x" = "a@x" ∧ "77" = "77" ∧ 1 = 1 ∧ 10 = 10) :=
  c9_cache_keys_inj "a@x" "a@x" "q" "q" "77" "77" 1 1 10 10
    (by decide) (by decide) (by decide) (by decide) (by decide)
    (by decide)

end ChatWs
